import Mathlib

/-!
# Verification of the Util-DBImport table-import handler

Shallow embedding of `src/handler.mjs`: a Lambda that restores a DynamoDB
table (schema + records) from an S3 JSON export.  Effectful calls to the
destination store are modelled by an oracle (`Store`) giving the store's
response to each call, together with an explicit trace of the
destination-table commands that have been issued (`RunState`).
-/

namespace DBImport

/-- Table-level provisioned capacity numbers (`ReadCapacityUnits`,
`WriteCapacityUnits`). -/
structure ProvisionedThroughput where
  readCapacityUnits : Nat
  writeCapacityUnits : Nat
deriving DecidableEq, Repr

/-- One element of a key schema (attribute name plus HASH/RANGE role). -/
structure KeySchemaElement where
  attributeName : String
  keyType : String
deriving DecidableEq, Repr

/-- One attribute definition (name plus scalar type). -/
structure AttributeDefinition where
  attributeName : String
  attributeType : String
deriving DecidableEq, Repr

/-- A global secondary index as it appears in the export artifact.  The
code reads exactly the fields `IndexName`, `KeySchema`, `Projection` and
`ProvisionedThroughput` of each entry of `schema.globalSecondaryIndexes`. -/
structure GlobalSecondaryIndex where
  indexName : String
  keySchema : List KeySchemaElement
  projection : String
  provisionedThroughput : Option ProvisionedThroughput
deriving DecidableEq, Repr

/-- A local secondary index as it appears in the export artifact.  The code
reads `IndexName`, `KeySchema` and `Projection`; any capacity numbers the
export may carry on an LSI are never read. -/
structure LocalSecondaryIndex where
  indexName : String
  keySchema : List KeySchemaElement
  projection : String
  provisionedThroughput : Option ProvisionedThroughput
deriving DecidableEq, Repr

/-- The `tableSchema` section of the export artifact, as read by
`createTableFromSchema`.  The parsed JSON object may carry a table-level
`provisionedThroughput` field; the code never reads it (it is included here
so that statements about exports that do carry capacity numbers can be
made). -/
structure TableSchema where
  tableName : String
  keySchema : List KeySchemaElement
  attributeDefinitions : List AttributeDefinition
  billingMode : Option String
  provisionedThroughput : Option ProvisionedThroughput
  globalSecondaryIndexes : Option (List GlobalSecondaryIndex)
  localSecondaryIndexes : Option (List LocalSecondaryIndex)
  streamSpecification : Option String
deriving DecidableEq, Repr

/-- A GSI entry of the `CreateTableCommand` parameters.  `none` for
`provisionedThroughput` models the JS `undefined` (the field is dropped by
the SDK serializer, i.e. omitted from the request). -/
structure GlobalSecondaryIndexParams where
  indexName : String
  keySchema : List KeySchemaElement
  projection : String
  provisionedThroughput : Option ProvisionedThroughput
deriving DecidableEq, Repr

/-- An LSI entry of the `CreateTableCommand` parameters. -/
structure LocalSecondaryIndexParams where
  indexName : String
  keySchema : List KeySchemaElement
  projection : String
deriving DecidableEq, Repr

/-- The parameters handed to `CreateTableCommand`. -/
structure CreateTableParams where
  tableName : String
  keySchema : List KeySchemaElement
  attributeDefinitions : List AttributeDefinition
  billingMode : String
  globalSecondaryIndexes : Option (List GlobalSecondaryIndexParams)
  localSecondaryIndexes : Option (List LocalSecondaryIndexParams)
  streamSpecification : Option String
  provisionedThroughput : Option ProvisionedThroughput
deriving DecidableEq, Repr

/-- JS `schema.billingMode || 'PAY_PER_REQUEST'`: `undefined`/absent and the
empty string are falsy and fall back to the default. -/
def jsBillingModeOrDefault : Option String → String
  | none => "PAY_PER_REQUEST"
  | some s => if s = "" then "PAY_PER_REQUEST" else s

/-- The pure parameter-construction part of `createTableFromSchema`
(handler.mjs lines 183-220): builds the `CreateTableCommand` parameters
from the exported schema. -/
def createTableParams (tableName : String) (schema : TableSchema) : CreateTableParams :=
  let billing := jsBillingModeOrDefault schema.billingMode
  { tableName := tableName
    keySchema := schema.keySchema
    attributeDefinitions := schema.attributeDefinitions
    billingMode := billing
    globalSecondaryIndexes :=
      match schema.globalSecondaryIndexes with
      | some gsis =>
        if gsis.length > 0 then
          some (gsis.map fun gsi =>
            { indexName := gsi.indexName
              keySchema := gsi.keySchema
              projection := gsi.projection
              provisionedThroughput :=
                if billing = "PROVISIONED" then gsi.provisionedThroughput else none })
        else none
      | none => none
    localSecondaryIndexes :=
      match schema.localSecondaryIndexes with
      | some lsis =>
        if lsis.length > 0 then
          some (lsis.map fun lsi =>
            { indexName := lsi.indexName
              keySchema := lsi.keySchema
              projection := lsi.projection })
        else none
      | none => none
    streamSpecification := schema.streamSpecification
    provisionedThroughput :=
      if billing = "PROVISIONED" then some ⟨5, 5⟩ else none }

/-- Response of the store to one `DescribeTableCommand`. -/
inductive DescribeResult where
  | found (tableStatus : String)
  | notFound
  | otherError (message : String)
deriving DecidableEq, Repr

/-- The errors the handler can fail with.  In the source every error is a JS
`Error` whose identity is its message string; the constructors here are in
bijection with the distinct message shapes (see `ImportError.message`). -/
inductive ImportError where
  | missingSourceKey
  | downloadFailed (message : String)
  | malformedExport
  | tableExistsNoOverwrite (tableName : String)
  | tableMissingNoCreate (tableName : String)
  | describeFailed (message : String)
  | deleteFailed (tableName message : String)
  | deleteTimeout (tableName : String)
  | createFailed (tableName message : String)
  | createTimeout (tableName : String)
deriving DecidableEq, Repr

/-- The literal message string the source code attaches to each error. -/
def ImportError.message : ImportError → String
  | .missingSourceKey =>
    "SOURCE_KEY must be provided either as environment variable or event parameter"
  | .downloadFailed m => "Failed to download from S3: " ++ m
  | .malformedExport => "Invalid export file format. Missing required fields."
  | .tableExistsNoOverwrite t =>
    "Table " ++ t ++ " already exists. Set OVERWRITE_EXISTING=true to replace it."
  | .tableMissingNoCreate t =>
    "Table " ++ t ++ " does not exist and CREATE_TABLE is not enabled"
  | .describeFailed m => m
  | .deleteFailed t m => "Failed to delete table " ++ t ++ ": " ++ m
  | .deleteTimeout t => "Timeout waiting for table " ++ t ++ " to be deleted"
  | .createFailed t m => "Failed to create table " ++ t ++ ": " ++ m
  | .createTimeout t => "Timeout waiting for table " ++ t ++ " to become active"

/-- Destination-table commands the handler can issue (the DynamoDB calls);
used only to record the trace of issued calls. -/
inductive Action where
  | describeTable (tableName : String)
  | deleteTable (tableName : String)
  | createTable (tableName : String)
  | putItem (tableName : String)
deriving DecidableEq, Repr

/-- Oracle for the destination store's behaviour during one run, with
`α` the type of records.  `describeResponses n` is the store's answer to
the `n`-th `DescribeTableCommand` issued during the run; `putResult x` is
the outcome of writing record `x` (an error carries `error.message`). -/
structure Store (α : Type) where
  describeResponses : Nat → DescribeResult
  deleteResult : Except String Unit
  createResult : Except String Unit
  putResult : α → Except String Unit

/-- Run state threaded through the handler: how many describe calls have
been consumed, and the trace of destination-table commands issued so far. -/
structure RunState where
  describeIdx : Nat
  trace : List Action
deriving DecidableEq, Repr

/-- Issue one `DescribeTableCommand` and consume the next store response. -/
def describeTableOp {α : Type} (store : Store α) (t : String) (s : RunState) :
    DescribeResult × RunState :=
  (store.describeResponses s.describeIdx,
    { describeIdx := s.describeIdx + 1, trace := s.trace ++ [Action.describeTable t] })

/-- `checkTableExists` (handler.mjs lines 135-146): a successful describe is
`true`, `ResourceNotFoundException` is `false`, any other error is
rethrown. -/
def checkTableExists {α : Type} (store : Store α) (t : String) (s : RunState) :
    Except ImportError Bool × RunState :=
  match describeTableOp store t s with
  | (DescribeResult.found _, s1) => (Except.ok true, s1)
  | (DescribeResult.notFound, s1) => (Except.ok false, s1)
  | (DescribeResult.otherError m, s1) => (Except.error (ImportError.describeFailed m), s1)

/-- `deleteTable` (handler.mjs lines 151-160): issues the delete command,
wrapping a failure message. -/
def deleteTableOp {α : Type} (store : Store α) (t : String) (s : RunState) :
    Except ImportError Unit × RunState :=
  let s1 := { s with trace := s.trace ++ [Action.deleteTable t] }
  match store.deleteResult with
  | Except.ok _ => (Except.ok (), s1)
  | Except.error m => (Except.error (ImportError.deleteFailed t m), s1)

/-- `waitForTableDeletion` (handler.mjs lines 165-176): poll `checkTableExists`
up to `maxAttempts` times (the `Nat` argument is the remaining budget);
return once the table is gone, propagate a describe error, time out
otherwise. -/
def waitForTableDeletion {α : Type} (store : Store α) (t : String) :
    Nat → RunState → Except ImportError Unit × RunState
  | 0, s => (Except.error (ImportError.deleteTimeout t), s)
  | Nat.succ remaining, s =>
    match checkTableExists store t s with
    | (Except.ok true, s1) => waitForTableDeletion store t remaining s1
    | (Except.ok false, s1) => (Except.ok (), s1)
    | (Except.error e, s1) => (Except.error e, s1)

/-- `createTableFromSchema` (handler.mjs lines 181-230): builds
`createTableParams` and issues the create command, wrapping a failure
message. -/
def createTableFromSchema {α : Type} (store : Store α) (t : String)
    (schema : TableSchema) (s : RunState) : Except ImportError Unit × RunState :=
  let _params := createTableParams t schema
  let s1 := { s with trace := s.trace ++ [Action.createTable t] }
  match store.createResult with
  | Except.ok _ => (Except.ok (), s1)
  | Except.error m => (Except.error (ImportError.createFailed t m), s1)

/-- `waitForTableCreation` (handler.mjs lines 235-254): poll
`DescribeTableCommand` up to `maxAttempts` times; return on status
`ACTIVE`; any describe failure is caught and treated as "not yet
available"; time out otherwise. -/
def waitForTableCreation {α : Type} (store : Store α) (t : String) :
    Nat → RunState → Except ImportError Unit × RunState
  | 0, s => (Except.error (ImportError.createTimeout t), s)
  | Nat.succ remaining, s =>
    match describeTableOp store t s with
    | (DescribeResult.found status, s1) =>
      if status = "ACTIVE" then (Except.ok (), s1)
      else waitForTableCreation store t remaining s1
    | (DescribeResult.notFound, s1) => waitForTableCreation store t remaining s1
    | (DescribeResult.otherError _, s1) => waitForTableCreation store t remaining s1

/-- The result object built by `importItems`. -/
structure ImportResult (α : Type) where
  successCount : Nat
  failedCount : Nat
  failedItems : List (α × String)
deriving DecidableEq, Repr

/-- The batch partition of `importItems` (handler.mjs line 271-272):
`items.slice(i, i + batchSize)` for `i = 0, batchSize, 2*batchSize, ...`.
The extra `Nat` argument is recursion fuel, sufficient whenever
`batchSize > 0` (with `batchSize = 0` the JS loop would not terminate). -/
def batchesAux {α : Type} (batchSize : Nat) : Nat → List α → List (List α)
  | _, [] => []
  | 0, _ :: _ => []
  | Nat.succ fuel, x :: xs =>
    List.take batchSize (x :: xs) :: batchesAux batchSize fuel (List.drop batchSize (x :: xs))

/-- The consecutive groups of at most `batchSize` records processed by
`importItems`, in source order. -/
def batches {α : Type} (batchSize : Nat) (items : List α) : List (List α) :=
  batchesAux batchSize items.length items

/-- Inner loop of `importItems` (handler.mjs lines 278-296): write each
record of a batch individually; a success increments `successCount`, a
failure increments `failedCount` and appends the record with its error
message. -/
def importBatch {α : Type} (store : Store α) (t : String) :
    List α → ImportResult α → RunState → ImportResult α × RunState
  | [], res, s => (res, s)
  | item :: rest, res, s =>
    let s1 := { s with trace := s.trace ++ [Action.putItem t] }
    match store.putResult item with
    | Except.ok _ =>
      importBatch store t rest { res with successCount := res.successCount + 1 } s1
    | Except.error m =>
      importBatch store t rest
        { res with failedCount := res.failedCount + 1,
                   failedItems := res.failedItems ++ [(item, m)] } s1

/-- Outer loop of `importItems`: process the batches in order. -/
def importBatches {α : Type} (store : Store α) (t : String) :
    List (List α) → ImportResult α → RunState → ImportResult α × RunState
  | [], res, s => (res, s)
  | b :: bs, res, s =>
    match importBatch store t b res s with
    | (res1, s1) => importBatches store t bs res1 s1

/-- `importItems` (handler.mjs lines 259-317): batch the records and import
them, starting from zero counts.  Never fails. -/
def importItems {α : Type} (store : Store α) (batchSize : Nat) (t : String)
    (items : List α) (s : RunState) : ImportResult α × RunState :=
  importBatches store t (batches batchSize items) ⟨0, 0, []⟩ s

/-- The parsed export artifact as the handler reads it (`α` the record
type).  `none` models an absent or JS-falsy section. -/
structure ExportData (α : Type) where
  exportMetadata : Option Unit
  tableSchema : Option TableSchema
  items : Option (List α)
deriving DecidableEq, Repr

/-- The event/config values the handler resolves (handler.mjs lines 30-34);
empty strings model absent string options (JS falsy). -/
structure HandlerInput where
  sourceKey : String
  targetTableName : String
  createTable : Bool
  overwriteExisting : Bool
deriving DecidableEq, Repr

/-- The Lambda response: statusCode 200 with the import summary, or
statusCode 500 with the error. -/
inductive HandlerResponse where
  | success (tableName : String) (importedItems failedItems : Nat)
  | failure (error : ImportError)
deriving DecidableEq, Repr

/-- `statusCode` of the response object (handler.mjs lines 83-104). -/
def statusCode : HandlerResponse → Nat
  | HandlerResponse.success _ _ _ => 200
  | HandlerResponse.failure _ => 500

/-- Step 3 of the handler (handler.mjs lines 63-65): issue the delete and
poll until the table is gone, with the source's default 30-attempt budget. -/
def deleteTableAndWait {α : Type} (store : Store α) (t : String) (s : RunState) :
    Except ImportError Unit × RunState :=
  match deleteTableOp store t s with
  | (Except.error e, s1) => (Except.error e, s1)
  | (Except.ok _, s1) => waitForTableDeletion store t 30 s1

/-- The create part of step 4 (handler.mjs lines 71-73): issue the create
and poll until ACTIVE, with the source's default 30-attempt budget. -/
def createTableAndWait {α : Type} (store : Store α) (t : String)
    (schema : TableSchema) (s : RunState) : Except ImportError Unit × RunState :=
  match createTableFromSchema store t schema s with
  | (Except.error e, s1) => (Except.error e, s1)
  | (Except.ok _, s1) => waitForTableCreation store t 30 s1

/-- Steps 2-4 of the handler (handler.mjs lines 54-77): existence check,
overwrite policy, optional delete-and-await, optional create-and-await. -/
def lifecyclePhase {α : Type} (store : Store α) (input : HandlerInput)
    (t : String) (schema : TableSchema) (s : RunState) :
    Except ImportError Unit × RunState :=
  match checkTableExists store t s with
  | (Except.error e, s1) => (Except.error e, s1)
  | (Except.ok tableExists, s1) =>
    if tableExists && !input.overwriteExisting then
      (Except.error (ImportError.tableExistsNoOverwrite t), s1)
    else
      match
        (if tableExists && input.overwriteExisting then deleteTableAndWait store t s1
         else (Except.ok (), s1)) with
      | (Except.error e, s2) => (Except.error e, s2)
      | (Except.ok _, s2) =>
        if !tableExists || input.overwriteExisting then
          if input.createTable then createTableAndWait store t schema s2
          else (Except.error (ImportError.tableMissingNoCreate t), s2)
        else (Except.ok (), s2)

/-- The Lambda `handler` (handler.mjs lines 24-105).  `download` is the
outcome of `downloadFromS3` (an error carries the underlying message, which
the source wraps as `Failed to download from S3: ...`); `batchSize` is
`CONFIG.BATCH_SIZE` (default 25). -/
def handler {α : Type} (store : Store α) (download : Except String (ExportData α))
    (input : HandlerInput) (batchSize : Nat) : HandlerResponse × RunState :=
  let s0 : RunState := ⟨0, []⟩
  if input.sourceKey = "" then
    (HandlerResponse.failure ImportError.missingSourceKey, s0)
  else
    match download with
    | Except.error m => (HandlerResponse.failure (ImportError.downloadFailed m), s0)
    | Except.ok d =>
      match d.exportMetadata, d.tableSchema, d.items with
      | some _, some schema, some items =>
        let t := if input.targetTableName = "" then schema.tableName
                 else input.targetTableName
        match lifecyclePhase store input t schema s0 with
        | (Except.error e, s1) => (HandlerResponse.failure e, s1)
        | (Except.ok _, s1) =>
          match importItems store batchSize t items s1 with
          | (res, s2) => (HandlerResponse.success t res.successCount res.failedCount, s2)
      | _, _, _ => (HandlerResponse.failure ImportError.malformedExport, s0)

/-! ## Schema Translator: generic facts -/

/-- Table-level provisioned throughput of the translated parameters:
always the 5/5 floor under PROVISIONED billing, omitted otherwise. -/
theorem createTableParams_provisionedThroughput (t : String) (schema : TableSchema) :
    (createTableParams t schema).provisionedThroughput =
      (if jsBillingModeOrDefault schema.billingMode = "PROVISIONED"
        then some ⟨5, 5⟩ else none) := by
  simp [createTableParams]

theorem createTableParams_billingMode (t : String) (schema : TableSchema) :
    (createTableParams t schema).billingMode = jsBillingModeOrDefault schema.billingMode := by
  simp [createTableParams]

/-- Every translated GSI entry carries capacity `none` unless the overall
billing mode is PROVISIONED, in which case it copies the export's per-index
capacity. -/
theorem createTableParams_gsi_throughput (t : String) (schema : TableSchema)
    (gs : List GlobalSecondaryIndexParams) (g : GlobalSecondaryIndexParams)
    (hgs : (createTableParams t schema).globalSecondaryIndexes = some gs)
    (hg : g ∈ gs) :
    (jsBillingModeOrDefault schema.billingMode = "PROVISIONED" ∧
      ∃ gsi : GlobalSecondaryIndex, gsi ∈ (schema.globalSecondaryIndexes.getD []) ∧
        g.provisionedThroughput = gsi.provisionedThroughput) ∨
    g.provisionedThroughput = none := by
  revert hgs
  simp only [createTableParams]
  cases hsch : schema.globalSecondaryIndexes with
  | none => intro h; cases h
  | some gsis =>
    simp only [Option.getD_some]
    by_cases hlen : gsis.length > 0
    · rw [if_pos hlen]
      intro h
      injection h with h
      subst h
      rcases List.mem_map.mp hg with ⟨gsi, hmem, hmap⟩
      by_cases hb : jsBillingModeOrDefault schema.billingMode = "PROVISIONED"
      · left
        refine ⟨hb, gsi, hmem, ?_⟩
        rw [← hmap]
        simp [hb]
      · right
        rw [← hmap]
        simp [hb]
    · rw [if_neg hlen]
      intro h; cases h

/-! ## C3: table-level provisioned capacity -/

/-- A provisioned-billing export schema that does carry table-level
capacity numbers (10/10); the translation ignores them. -/
def schemaC3 : TableSchema :=
  ⟨"Users", [⟨"id", "HASH"⟩], [⟨"id", "S"⟩], some "PROVISIONED",
    some ⟨10, 10⟩, none, none, none⟩

/-- C3 counterexample: for a provisioned-mode schema whose export carries
capacity numbers 10/10, the creation parameters still get the 5/5 floor,
not the carried numbers — contradicting "when the export does carry
capacity numbers, those are used". -/
theorem c3_counterexample :
    schemaC3.provisionedThroughput = some ⟨10, 10⟩ ∧
    (createTableParams "Users" schemaC3).billingMode = "PROVISIONED" ∧
    (createTableParams "Users" schemaC3).provisionedThroughput = some ⟨5, 5⟩ ∧
    (createTableParams "Users" schemaC3).provisionedThroughput ≠ some ⟨10, 10⟩ := by
  refine ⟨rfl, by decide, by decide, by decide⟩

/-- C3 (amended): when the translated billing mode is provisioned, the 5/5
conservative minimum is always substituted for the table-level provisioned
capacity — whether or not the export carries capacity numbers, which the
translation ignores; under any other billing mode no table-level capacity
is emitted. -/
theorem c3_provisioned_capacity_floor (t : String) (schema : TableSchema) :
    ((createTableParams t schema).billingMode = "PROVISIONED" →
      (createTableParams t schema).provisionedThroughput = some ⟨5, 5⟩) ∧
    ((createTableParams t schema).billingMode ≠ "PROVISIONED" →
      (createTableParams t schema).provisionedThroughput = none) := by
  rw [createTableParams_billingMode, createTableParams_provisionedThroughput]
  constructor <;> intro h <;> simp [h]

/-- Witness for `c3_provisioned_capacity_floor` at `schemaC3`. -/
theorem c3_provisioned_capacity_floor_witness :
    (createTableParams "Users" schemaC3).provisionedThroughput = some ⟨5, 5⟩ :=
  (c3_provisioned_capacity_floor "Users" schemaC3).1 (by decide)

/-! ## C4: per-index capacity omitted under on-demand billing -/

/-- C4: under on-demand billing every translated GSI entry omits its
provisioned-capacity field (it is `none`, the JS `undefined` the SDK
drops); a GSI entry carries capacity only when the overall billing mode is
provisioned. -/
theorem c4_on_demand_omits_gsi_capacity (t : String) (schema : TableSchema)
    (gs : List GlobalSecondaryIndexParams) (g : GlobalSecondaryIndexParams) :
    ((createTableParams t schema).billingMode = "PAY_PER_REQUEST" →
      (createTableParams t schema).globalSecondaryIndexes = some gs → g ∈ gs →
      g.provisionedThroughput = none) ∧
    ((createTableParams t schema).globalSecondaryIndexes = some gs → g ∈ gs →
      g.provisionedThroughput ≠ none →
      (createTableParams t schema).billingMode = "PROVISIONED") := by
  constructor
  · intro hb hgs hg
    rcases createTableParams_gsi_throughput t schema gs g hgs hg with ⟨hprov, _⟩ | hnone
    · rw [createTableParams_billingMode] at hb
      exact absurd (hb ▸ hprov) (by decide)
    · exact hnone
  · intro hgs hg hne
    rcases createTableParams_gsi_throughput t schema gs g hgs hg with ⟨hprov, _⟩ | hnone
    · rw [createTableParams_billingMode]
      exact hprov
    · exact absurd hnone hne

/-- An on-demand export schema with one GSI that carries explicit capacity
numbers in the export. -/
def schemaC4 : TableSchema :=
  ⟨"Events", [⟨"id", "HASH"⟩], [⟨"id", "S"⟩], some "PAY_PER_REQUEST", none,
    some [⟨"gsi1", [⟨"owner", "HASH"⟩], "ALL", some ⟨7, 7⟩⟩], none, none⟩

/-- The translated GSI entry for `schemaC4`: capacity omitted. -/
def gsiParamsC4 : GlobalSecondaryIndexParams := ⟨"gsi1", [⟨"owner", "HASH"⟩], "ALL", none⟩

/-- Witness for `c4_on_demand_omits_gsi_capacity` at `schemaC4`. -/
theorem c4_on_demand_omits_gsi_capacity_witness :
    (createTableParams "Events" schemaC4).globalSecondaryIndexes = some [gsiParamsC4] ∧
    gsiParamsC4.provisionedThroughput = none :=
  ⟨by decide,
    (c4_on_demand_omits_gsi_capacity "Events" schemaC4 [gsiParamsC4] gsiParamsC4).1
      (by decide) (by decide) (List.mem_singleton.mpr rfl)⟩

/-! ## Batch partition facts -/

theorem batchesAux_flatten {α : Type} (b : Nat) (hb : 0 < b) :
    ∀ (fuel : Nat) (l : List α), l.length ≤ fuel → (batchesAux b fuel l).flatten = l := by
  intro fuel
  induction fuel with
  | zero =>
    intro l hl
    have hnil : l = [] := List.eq_nil_of_length_eq_zero (Nat.le_zero.mp hl)
    subst hnil
    rfl
  | succ n ih =>
    intro l hl
    cases l with
    | nil => rfl
    | cons x xs =>
      have hlen : (List.drop b (x :: xs)).length ≤ n := by
        rw [List.length_drop]
        simp only [List.length_cons] at hl ⊢
        omega
      show (List.take b (x :: xs) :: batchesAux b n (List.drop b (x :: xs))).flatten = x :: xs
      rw [List.flatten_cons, ih _ hlen, List.take_append_drop]

theorem batchesAux_mem_length {α : Type} (b : Nat) :
    ∀ (fuel : Nat) (l : List α) (g : List α), g ∈ batchesAux b fuel l → g.length ≤ b := by
  intro fuel
  induction fuel with
  | zero =>
    intro l g hg
    cases l <;> cases hg
  | succ n ih =>
    intro l g hg
    cases l with
    | nil => cases hg
    | cons x xs =>
      rcases List.mem_cons.mp hg with h | h
      · subst h
        exact List.length_take_le b (x :: xs)
      · exact ih _ _ h

theorem batchesAux_length {α : Type} (b : Nat) (hb : 0 < b) :
    ∀ (fuel : Nat) (l : List α), l.length ≤ fuel →
      (batchesAux b fuel l).length = (l.length + b - 1) / b := by
  intro fuel
  induction fuel with
  | zero =>
    intro l hl
    have hnil : l = [] := List.eq_nil_of_length_eq_zero (Nat.le_zero.mp hl)
    subst hnil
    simp only [batchesAux, List.length_nil, Nat.zero_add]
    rw [Nat.div_eq_of_lt (by omega : b - 1 < b)]
  | succ n ih =>
    intro l hl
    cases l with
    | nil =>
      simp only [batchesAux, List.length_nil, Nat.zero_add]
      rw [Nat.div_eq_of_lt (by omega : b - 1 < b)]
    | cons x xs =>
      have hlen : (List.drop b (x :: xs)).length ≤ n := by
        rw [List.length_drop]
        simp only [List.length_cons] at hl ⊢
        omega
      show (List.take b (x :: xs) :: batchesAux b n (List.drop b (x :: xs))).length = _
      rw [List.length_cons, ih _ hlen, List.length_drop]
      have hm : 1 ≤ (x :: xs).length := by simp
      have h2 : (x :: xs).length + b - 1 = ((x :: xs).length - 1) + b := by omega
      rw [h2, Nat.add_div_right _ hb]
      by_cases hmb : b ≤ (x :: xs).length
      · have h3 : (x :: xs).length - b + b - 1 = (x :: xs).length - 1 := by omega
        rw [h3]
      · have h3 : (x :: xs).length - b + b - 1 = b - 1 := by omega
        rw [h3, Nat.div_eq_of_lt (by omega), Nat.div_eq_of_lt (by omega)]

/-- C7: with batch size `B > 0` the importer's partition consists of
`ceil(N / B)` consecutive groups of at most `B` records whose concatenation
in order is the source sequence; and 53 records with batch size 25 yield
groups of sizes 25, 25, 3. -/
theorem c7_batch_partition {α : Type} (b : Nat) (items : List α) (hb : 0 < b) :
    (batches b items).flatten = items ∧
    (∀ g ∈ batches b items, g.length ≤ b) ∧
    (batches b items).length = (items.length + b - 1) / b ∧
    (batches 25 (List.range 53)).map List.length = [25, 25, 3] := by
  refine ⟨batchesAux_flatten b hb items.length items le_rfl,
    fun g hg => batchesAux_mem_length b items.length items g hg,
    batchesAux_length b hb items.length items le_rfl, by decide⟩

/-- Witness for `c7_batch_partition` at batch size 3 over five records. -/
theorem c7_batch_partition_witness :
    (batches 3 [0, 1, 2, 3, 4]).flatten = [0, 1, 2, 3, 4] ∧
    (∀ g ∈ batches 3 [0, 1, 2, 3, 4], g.length ≤ 3) ∧
    (batches 3 [0, 1, 2, 3, 4]).length = (5 + 3 - 1) / 3 ∧
    (batches 25 (List.range 53)).map List.length = [25, 25, 3] :=
  c7_batch_partition 3 [0, 1, 2, 3, 4] (by decide)

/-! ## Import-phase facts -/

/-- Whether writing record `x` succeeds under `put`. -/
def putOk {α : Type} (put : α → Except String Unit) (x : α) : Bool :=
  match put x with
  | Except.ok _ => true
  | Except.error _ => false

/-- The records of `items` whose write fails, each paired with its error
message, in source order. -/
def putFailures {α : Type} (put : α → Except String Unit) (items : List α) :
    List (α × String) :=
  items.filterMap fun x =>
    match put x with
    | Except.ok _ => none
    | Except.error m => some (x, m)

theorem importBatch_eq {α : Type} (store : Store α) (t : String) :
    ∀ (batch : List α) (res : ImportResult α) (s : RunState),
      importBatch store t batch res s =
        (⟨res.successCount + batch.countP (putOk store.putResult),
          res.failedCount + batch.countP (fun x => !putOk store.putResult x),
          res.failedItems ++ putFailures store.putResult batch⟩,
         ⟨s.describeIdx, s.trace ++ batch.map (fun _ => Action.putItem t)⟩) := by
  intro batch
  induction batch with
  | nil =>
    intro res s
    simp [importBatch, putFailures]
  | cons x xs ih =>
    intro res s
    cases hput : store.putResult x with
    | ok u =>
      cases u
      simp only [importBatch, hput, ih, putFailures, List.filterMap_cons, List.countP_cons,
        List.map_cons, putOk]
      simp [List.append_assoc]
      omega
    | error m =>
      simp only [importBatch, hput, ih, putFailures, List.filterMap_cons, List.countP_cons,
        List.map_cons, putOk]
      simp [List.append_assoc]
      omega

theorem importBatches_eq {α : Type} (store : Store α) (t : String) :
    ∀ (bs : List (List α)) (res : ImportResult α) (s : RunState),
      importBatches store t bs res s =
        (⟨res.successCount + bs.flatten.countP (putOk store.putResult),
          res.failedCount + bs.flatten.countP (fun x => !putOk store.putResult x),
          res.failedItems ++ putFailures store.putResult bs.flatten⟩,
         ⟨s.describeIdx, s.trace ++ bs.flatten.map (fun _ => Action.putItem t)⟩) := by
  intro bs
  induction bs with
  | nil =>
    intro res s
    simp [importBatches, putFailures]
  | cons bch bs ih =>
    intro res s
    simp only [importBatches, importBatch_eq, ih, List.flatten_cons, List.countP_append,
      List.map_append, putFailures, List.filterMap_append]
    simp [List.append_assoc, Nat.add_assoc]

/-- `importItems` computes, for any positive batch size, exactly the
per-record success/failure counts and failure list of the flat record
sequence, and issues one `PutItemCommand` per record. -/
theorem importItems_eq {α : Type} (store : Store α) (t : String) (b : Nat)
    (items : List α) (s : RunState) (hb : 0 < b) :
    importItems store b t items s =
      (⟨items.countP (putOk store.putResult),
        items.countP (fun x => !putOk store.putResult x),
        putFailures store.putResult items⟩,
       ⟨s.describeIdx, s.trace ++ items.map (fun _ => Action.putItem t)⟩) := by
  have hflat : (batches b items).flatten = items :=
    batchesAux_flatten b hb items.length items le_rfl
  rw [importItems, importBatches_eq, hflat]
  simp

theorem countP_add_countP_not {α : Type} (p : α → Bool) :
    ∀ l : List α, l.countP p + l.countP (fun x => !p x) = l.length := by
  intro l
  induction l with
  | nil => rfl
  | cons x xs ih =>
    by_cases h : p x <;> simp [List.countP_cons, h, ← ih] <;> omega

/-- C5: after the batch import phase completes, `successCount + failedCount`
equals the number of records, and every record whose write failed appears
in the failure list paired with its failure reason. -/
theorem c5_counts_and_failures {α : Type} (store : Store α) (t : String)
    (b : Nat) (items : List α) (s : RunState) (hb : 0 < b) :
    (importItems store b t items s).1.successCount +
        (importItems store b t items s).1.failedCount = items.length ∧
    ∀ x m, x ∈ items → store.putResult x = Except.error m →
      (x, m) ∈ (importItems store b t items s).1.failedItems := by
  rw [importItems_eq store t b items s hb]
  constructor
  · exact countP_add_countP_not _ items
  · intro x m hx hfail
    refine List.mem_filterMap.mpr ⟨x, hx, ?_⟩
    rw [hfail]

/-- A store whose writes fail exactly on odd records. -/
def storeC5 : Store Nat :=
  ⟨fun _ => DescribeResult.notFound, Except.ok (), Except.ok (),
    fun x => if x % 2 = 0 then Except.ok () else Except.error "odd"⟩

/-- Witness for `c5_counts_and_failures`: three records, batch size 2, one
failing record. -/
theorem c5_counts_and_failures_witness :
    (importItems storeC5 2 "T" [0, 1, 2] ⟨0, []⟩).1.successCount +
        (importItems storeC5 2 "T" [0, 1, 2] ⟨0, []⟩).1.failedCount = 3 ∧
    ∀ x m, x ∈ [0, 1, 2] → storeC5.putResult x = Except.error m →
      (x, m) ∈ (importItems storeC5 2 "T" [0, 1, 2] ⟨0, []⟩).1.failedItems :=
  c5_counts_and_failures storeC5 "T" 2 [0, 1, 2] ⟨0, []⟩ (by decide)

/-! ## C8: the existence check -/

/-- C8: the existence check answers `false` on a not-found response (not an
error), `true` on a successful describe, and propagates any other describe
failure as an error instead of returning a boolean. -/
theorem c8_exists_check {α : Type} (store : Store α) (t : String) (s : RunState)
    (st m : String) :
    (store.describeResponses s.describeIdx = DescribeResult.notFound →
      (checkTableExists store t s).1 = Except.ok false) ∧
    (store.describeResponses s.describeIdx = DescribeResult.found st →
      (checkTableExists store t s).1 = Except.ok true) ∧
    (store.describeResponses s.describeIdx = DescribeResult.otherError m →
      (checkTableExists store t s).1 = Except.error (ImportError.describeFailed m)) := by
  refine ⟨?_, ?_, ?_⟩ <;> intro h <;> simp [checkTableExists, describeTableOp, h]

/-- A store answering the first describe with not-found and the second with
a non-not-found failure. -/
def storeC8 : Store Nat :=
  ⟨fun n => if n = 0 then DescribeResult.notFound
            else DescribeResult.otherError "AccessDenied",
    Except.ok (), Except.ok (), fun _ => Except.ok ()⟩

/-- Witness for `c8_exists_check` on `storeC8`. -/
theorem c8_exists_check_witness :
    (checkTableExists storeC8 "T" ⟨0, []⟩).1 = Except.ok false ∧
    (checkTableExists storeC8 "T" ⟨1, []⟩).1 =
      Except.error (ImportError.describeFailed "AccessDenied") :=
  ⟨(c8_exists_check storeC8 "T" ⟨0, []⟩ "" "").1 (by decide),
   (c8_exists_check storeC8 "T" ⟨1, []⟩ "" "AccessDenied").2.2 (by decide)⟩

/-! ## Polling-loop facts -/

theorem waitForTableDeletion_describeIdx {α : Type} (store : Store α) (t : String) :
    ∀ (n : Nat) (s : RunState),
      (waitForTableDeletion store t n s).2.describeIdx ≤ s.describeIdx + n := by
  intro n
  induction n with
  | zero => intro s; simp [waitForTableDeletion]
  | succ n ih =>
    intro s
    simp only [waitForTableDeletion, checkTableExists, describeTableOp]
    cases store.describeResponses s.describeIdx with
    | found st =>
      exact le_trans (ih _) (by simp; omega)
    | notFound =>
      show s.describeIdx + 1 ≤ s.describeIdx + (n + 1)
      omega
    | otherError m =>
      show s.describeIdx + 1 ≤ s.describeIdx + (n + 1)
      omega

theorem waitForTableDeletion_trace {α : Type} (store : Store α) (t : String) :
    ∀ (n : Nat) (s : RunState), ∃ k,
      (waitForTableDeletion store t n s).2.trace =
        s.trace ++ List.replicate k (Action.describeTable t) := by
  intro n
  induction n with
  | zero => intro s; exact ⟨0, by simp [waitForTableDeletion]⟩
  | succ n ih =>
    intro s
    simp only [waitForTableDeletion, checkTableExists, describeTableOp]
    cases store.describeResponses s.describeIdx with
    | found st =>
      rcases ih ⟨s.describeIdx + 1, s.trace ++ [Action.describeTable t]⟩ with ⟨k, hk⟩
      exact ⟨k + 1, by
        simp only at hk
        rw [hk, List.append_assoc]
        simp [List.replicate_succ]⟩
    | notFound => exact ⟨1, by simp⟩
    | otherError m => exact ⟨1, by simp⟩

theorem waitForTableDeletion_results {α : Type} (store : Store α) (t : String) :
    ∀ (n : Nat) (s : RunState),
      (waitForTableDeletion store t n s).1 = Except.ok () ∨
      (waitForTableDeletion store t n s).1 = Except.error (ImportError.deleteTimeout t) ∨
      ∃ m, (waitForTableDeletion store t n s).1 =
        Except.error (ImportError.describeFailed m) := by
  intro n
  induction n with
  | zero => intro s; simp [waitForTableDeletion]
  | succ n ih =>
    intro s
    simp only [waitForTableDeletion, checkTableExists, describeTableOp]
    cases store.describeResponses s.describeIdx with
    | found st => exact ih _
    | notFound => simp
    | otherError m => simp

theorem waitForTableDeletion_ok_iff {α : Type} (store : Store α) (t : String) :
    ∀ (n : Nat) (s : RunState),
      (∀ i, i < n → ∀ m,
        store.describeResponses (s.describeIdx + i) ≠ DescribeResult.otherError m) →
      ((waitForTableDeletion store t n s).1 = Except.ok () ↔
        ∃ i, i < n ∧ store.describeResponses (s.describeIdx + i) = DescribeResult.notFound) := by
  intro n
  induction n with
  | zero =>
    intro s _
    simp [waitForTableDeletion]
  | succ n ih =>
    intro s hno
    simp only [waitForTableDeletion, checkTableExists, describeTableOp]
    cases h0 : store.describeResponses s.describeIdx with
    | found st =>
      have hno1 : ∀ i, i < n → ∀ m,
          store.describeResponses (s.describeIdx + 1 + i) ≠ DescribeResult.otherError m := by
        intro i hi m
        have := hno (i + 1) (by omega) m
        rwa [show s.describeIdx + (i + 1) = s.describeIdx + 1 + i by omega] at this
      rw [ih ⟨s.describeIdx + 1, s.trace ++ [Action.describeTable t]⟩ hno1]
      constructor
      · rintro ⟨i, hi, hresp⟩
        exact ⟨i + 1, by omega, by
          rwa [show s.describeIdx + (i + 1) = s.describeIdx + 1 + i by omega]⟩
      · rintro ⟨i, hi, hresp⟩
        cases i with
        | zero =>
          rw [Nat.add_zero, h0] at hresp
          cases hresp
        | succ j =>
          exact ⟨j, by omega, by
            rwa [show s.describeIdx + 1 + j = s.describeIdx + (j + 1) by omega]⟩
    | notFound =>
      simp only [Prod.fst]
      constructor
      · intro _
        exact ⟨0, by omega, by simpa using h0⟩
      · intro _
        trivial
    | otherError m =>
      exact absurd (by simpa using h0) (hno 0 (by omega) m)

theorem waitForTableCreation_describeIdx {α : Type} (store : Store α) (t : String) :
    ∀ (n : Nat) (s : RunState),
      (waitForTableCreation store t n s).2.describeIdx ≤ s.describeIdx + n := by
  intro n
  induction n with
  | zero => intro s; simp [waitForTableCreation]
  | succ n ih =>
    intro s
    simp only [waitForTableCreation, describeTableOp]
    cases store.describeResponses s.describeIdx with
    | found st =>
      by_cases hst : st = "ACTIVE"
      · simp [hst]
      · simp only [hst, if_false]
        exact le_trans (ih _) (by simp; omega)
    | notFound => exact le_trans (ih _) (by simp; omega)
    | otherError m => exact le_trans (ih _) (by simp; omega)

theorem waitForTableCreation_trace {α : Type} (store : Store α) (t : String) :
    ∀ (n : Nat) (s : RunState), ∃ k,
      (waitForTableCreation store t n s).2.trace =
        s.trace ++ List.replicate k (Action.describeTable t) := by
  intro n
  induction n with
  | zero => intro s; exact ⟨0, by simp [waitForTableCreation]⟩
  | succ n ih =>
    intro s
    have step : ∀ s1 : RunState, s1.trace = s.trace ++ [Action.describeTable t] →
        (∃ k, (waitForTableCreation store t n s1).2.trace =
          s1.trace ++ List.replicate k (Action.describeTable t)) →
        ∃ k, (waitForTableCreation store t n s1).2.trace =
          s.trace ++ List.replicate k (Action.describeTable t) := by
      rintro s1 h1 ⟨k, hk⟩
      exact ⟨k + 1, by
        rw [hk, h1, List.append_assoc]
        simp [List.replicate_succ]⟩
    simp only [waitForTableCreation, describeTableOp]
    cases store.describeResponses s.describeIdx with
    | found st =>
      by_cases hst : st = "ACTIVE"
      · exact ⟨1, by simp [hst]⟩
      · simp only [hst, if_false]
        exact step _ rfl (ih _)
    | notFound => exact step _ rfl (ih _)
    | otherError m => exact step _ rfl (ih _)

theorem waitForTableCreation_results {α : Type} (store : Store α) (t : String) :
    ∀ (n : Nat) (s : RunState),
      (waitForTableCreation store t n s).1 = Except.ok () ∨
      (waitForTableCreation store t n s).1 = Except.error (ImportError.createTimeout t) := by
  intro n
  induction n with
  | zero => intro s; simp [waitForTableCreation]
  | succ n ih =>
    intro s
    simp only [waitForTableCreation, describeTableOp]
    cases store.describeResponses s.describeIdx with
    | found st =>
      by_cases hst : st = "ACTIVE"
      · simp [hst]
      · simp only [hst, if_false]
        exact ih _
    | notFound => exact ih _
    | otherError m => exact ih _

theorem waitForTableCreation_ok_iff {α : Type} (store : Store α) (t : String) :
    ∀ (n : Nat) (s : RunState),
      ((waitForTableCreation store t n s).1 = Except.ok () ↔
        ∃ i, i < n ∧
          store.describeResponses (s.describeIdx + i) = DescribeResult.found "ACTIVE") := by
  intro n
  induction n with
  | zero =>
    intro s
    simp [waitForTableCreation]
  | succ n ih =>
    intro s
    have shift : ∀ s1 : RunState, s1.describeIdx = s.describeIdx + 1 →
        store.describeResponses s.describeIdx ≠ DescribeResult.found "ACTIVE" →
        ((waitForTableCreation store t n s1).1 = Except.ok () ↔
          ∃ i, i < n + 1 ∧
            store.describeResponses (s.describeIdx + i) = DescribeResult.found "ACTIVE") := by
      intro s1 h1 hne
      rw [ih s1]
      constructor
      · rintro ⟨i, hi, hresp⟩
        exact ⟨i + 1, by omega, by
          rw [show s.describeIdx + (i + 1) = s1.describeIdx + i by omega]
          exact hresp⟩
      · rintro ⟨i, hi, hresp⟩
        cases i with
        | zero =>
          rw [Nat.add_zero] at hresp
          exact absurd hresp hne
        | succ j =>
          exact ⟨j, by omega, by
            rw [h1, show s.describeIdx + 1 + j = s.describeIdx + (j + 1) by omega]
            exact hresp⟩
    simp only [waitForTableCreation, describeTableOp]
    cases h0 : store.describeResponses s.describeIdx with
    | found st =>
      by_cases hst : st = "ACTIVE"
      · subst hst
        simp only [if_pos rfl]
        constructor
        · intro _
          exact ⟨0, by omega, by simpa using h0⟩
        · intro _
          rfl
      · simp only [hst, if_false]
        exact shift _ rfl (by rw [h0]; intro hc; injection hc with hc; exact hst hc)
    | notFound => exact shift _ rfl (by rw [h0]; intro hc; cases hc)
    | otherError m => exact shift _ rfl (by rw [h0]; intro hc; cases hc)

theorem waitForTableDeletion_no_error {α : Type} (store : Store α) (t : String) :
    ∀ (n : Nat) (s : RunState),
      (∀ i, i < n → ∀ m,
        store.describeResponses (s.describeIdx + i) ≠ DescribeResult.otherError m) →
      (waitForTableDeletion store t n s).1 = Except.ok () ∨
      (waitForTableDeletion store t n s).1 = Except.error (ImportError.deleteTimeout t) := by
  intro n
  induction n with
  | zero => intro s _; simp [waitForTableDeletion]
  | succ n ih =>
    intro s hno
    simp only [waitForTableDeletion, checkTableExists, describeTableOp]
    cases h0 : store.describeResponses s.describeIdx with
    | found st =>
      refine ih _ ?_
      intro i hi m
      have := hno (i + 1) (by omega) m
      rwa [show s.describeIdx + (i + 1) = s.describeIdx + 1 + i by omega] at this
    | notFound => simp
    | otherError m =>
      exact absurd (by simpa using h0) (hno 0 (by omega) m)

/-! ## C9: attempt budgets of the polling loops -/

/-- C9: both polling loops consume at most `maxAttempts` describe calls
under any store behaviour; when the store never answers the delete waiter
with a non-not-found failure, the delete waiter succeeds exactly when a
not-found response appears within the budget and otherwise fails with
`DeleteTimeout`; the create waiter succeeds exactly when an ACTIVE status
appears within the budget and otherwise fails with `CreateTimeout`. -/
theorem c9_poll_budgets {α : Type} (store : Store α) (t : String) (n : Nat) (s : RunState) :
    (waitForTableDeletion store t n s).2.describeIdx ≤ s.describeIdx + n ∧
    (waitForTableCreation store t n s).2.describeIdx ≤ s.describeIdx + n ∧
    ((∀ i, i < n → ∀ m,
        store.describeResponses (s.describeIdx + i) ≠ DescribeResult.otherError m) →
      (((waitForTableDeletion store t n s).1 = Except.ok () ↔
          ∃ i, i < n ∧
            store.describeResponses (s.describeIdx + i) = DescribeResult.notFound) ∧
        ((waitForTableDeletion store t n s).1 ≠ Except.ok () →
          (waitForTableDeletion store t n s).1 =
            Except.error (ImportError.deleteTimeout t)))) ∧
    ((waitForTableCreation store t n s).1 = Except.ok () ↔
      ∃ i, i < n ∧
        store.describeResponses (s.describeIdx + i) = DescribeResult.found "ACTIVE") ∧
    ((waitForTableCreation store t n s).1 ≠ Except.ok () →
      (waitForTableCreation store t n s).1 =
        Except.error (ImportError.createTimeout t)) := by
  refine ⟨waitForTableDeletion_describeIdx store t n s,
    waitForTableCreation_describeIdx store t n s, ?_, waitForTableCreation_ok_iff store t n s,
    ?_⟩
  · intro hno
    refine ⟨waitForTableDeletion_ok_iff store t n s hno, ?_⟩
    intro hne
    rcases waitForTableDeletion_no_error store t n s hno with h | h
    · exact absurd h hne
    · exact h
  · intro hne
    rcases waitForTableCreation_results store t n s with h | h
    · exact absurd h hne
    · exact h

/-- A store for the C9 witness: the table is seen once, is gone on the
second describe, and is active on the third. -/
def storeC9 : Store Nat :=
  ⟨fun i => if i = 0 then DescribeResult.found "CREATING"
            else if i = 1 then DescribeResult.notFound
            else DescribeResult.found "ACTIVE",
    Except.ok (), Except.ok (), fun _ => Except.ok ()⟩

/-- Witness for `c9_poll_budgets` on `storeC9` with a 3-attempt budget. -/
theorem c9_poll_budgets_witness :
    (waitForTableDeletion storeC9 "T" 3 ⟨0, []⟩).2.describeIdx ≤ 0 + 3 ∧
    (waitForTableCreation storeC9 "T" 3 ⟨0, []⟩).2.describeIdx ≤ 0 + 3 ∧
    ((waitForTableDeletion storeC9 "T" 3 ⟨0, []⟩).1 = Except.ok () ↔
      ∃ i, i < 3 ∧ storeC9.describeResponses (0 + i) = DescribeResult.notFound) ∧
    ((waitForTableDeletion storeC9 "T" 3 ⟨0, []⟩).1 ≠ Except.ok () →
      (waitForTableDeletion storeC9 "T" 3 ⟨0, []⟩).1 =
        Except.error (ImportError.deleteTimeout "T")) ∧
    ((waitForTableCreation storeC9 "T" 3 ⟨0, []⟩).1 = Except.ok () ↔
      ∃ i, i < 3 ∧ storeC9.describeResponses (0 + i) = DescribeResult.found "ACTIVE") ∧
    ((waitForTableCreation storeC9 "T" 3 ⟨0, []⟩).1 ≠ Except.ok () →
      (waitForTableCreation storeC9 "T" 3 ⟨0, []⟩).1 =
        Except.error (ImportError.createTimeout "T")) := by
  have h := c9_poll_budgets storeC9 "T" 3 ⟨0, []⟩
  have hno : ∀ i, i < 3 → ∀ m,
      storeC9.describeResponses ((⟨0, []⟩ : RunState).describeIdx + i) ≠
        DescribeResult.otherError m := by
    intro i hi m
    interval_cases i <;> simp [storeC9]
  rcases h with ⟨h1, h2, h3, h4, h5⟩
  exact ⟨h1, h2, (h3 hno).1, (h3 hno).2, h4, h5⟩

/-! ## C10: the create waiter swallows every describe failure -/

/-- C10: the await-creation loop never propagates a describe failure of any
kind — its only outcomes are success and `CreateTimeout` — and it succeeds
only by observing an ACTIVE status within the attempt budget. -/
theorem c10_create_wait_swallows_errors {α : Type} (store : Store α) (t : String)
    (n : Nat) (s : RunState) :
    ((waitForTableCreation store t n s).1 = Except.ok () ∨
      (waitForTableCreation store t n s).1 = Except.error (ImportError.createTimeout t)) ∧
    ((waitForTableCreation store t n s).1 = Except.ok () →
      ∃ i, i < n ∧
        store.describeResponses (s.describeIdx + i) = DescribeResult.found "ACTIVE") :=
  ⟨waitForTableCreation_results store t n s,
    fun h => (waitForTableCreation_ok_iff store t n s).mp h⟩

/-- A store for the C10 witness: the first describe fails with an arbitrary
error, the second reports ACTIVE. -/
def storeC10 : Store Nat :=
  ⟨fun i => if i = 0 then DescribeResult.otherError "InternalServerError"
            else DescribeResult.found "ACTIVE",
    Except.ok (), Except.ok (), fun _ => Except.ok ()⟩

/-- Witness for `c10_create_wait_swallows_errors` on `storeC10`. -/
theorem c10_create_wait_swallows_errors_witness :
    ((waitForTableCreation storeC10 "T" 3 ⟨0, []⟩).1 = Except.ok () ∨
      (waitForTableCreation storeC10 "T" 3 ⟨0, []⟩).1 =
        Except.error (ImportError.createTimeout "T")) ∧
    (∃ i, i < 3 ∧ storeC10.describeResponses (0 + i) = DescribeResult.found "ACTIVE") := by
  have h := c10_create_wait_swallows_errors storeC10 "T" 3 ⟨0, []⟩
  exact ⟨h.1, h.2 rfl⟩

/-! ## Lifecycle-phase policy failures -/

theorem deleteTableAndWait_policy_free {α : Type} (store : Store α) (t : String)
    (s : RunState) (u : String) :
    (deleteTableAndWait store t s).1 ≠
        Except.error (ImportError.tableExistsNoOverwrite u) ∧
    (deleteTableAndWait store t s).1 ≠
        Except.error (ImportError.tableMissingNoCreate u) := by
  unfold deleteTableAndWait
  cases hd : store.deleteResult with
  | error m => simp [deleteTableOp, hd]
  | ok uu =>
    cases uu
    simp only [deleteTableOp, hd]
    have hr := waitForTableDeletion_results store t 30
      ⟨s.describeIdx, s.trace ++ [Action.deleteTable t]⟩
    rcases hr with hr | hr | ⟨m2, hr⟩ <;> rw [hr] <;> simp

theorem createTableAndWait_policy_free {α : Type} (store : Store α) (t : String)
    (schema : TableSchema) (s : RunState) (u : String) :
    (createTableAndWait store t schema s).1 ≠
        Except.error (ImportError.tableExistsNoOverwrite u) ∧
    (createTableAndWait store t schema s).1 ≠
        Except.error (ImportError.tableMissingNoCreate u) := by
  unfold createTableAndWait
  cases hcr : store.createResult with
  | error m => simp [createTableFromSchema, hcr]
  | ok uu =>
    cases uu
    simp only [createTableFromSchema, hcr]
    have hr := waitForTableCreation_results store t 30
      ⟨s.describeIdx, s.trace ++ [Action.createTable t]⟩
    rcases hr with hr | hr <;> rw [hr] <;> simp

theorem deleteTableAndWait_trace {α : Type} (store : Store α) (t : String) (s : RunState) :
    ∃ ext, (deleteTableAndWait store t s).2.trace = s.trace ++ ext ∧
      (∀ v, Action.createTable v ∉ ext) ∧ (∀ v, Action.putItem v ∉ ext) := by
  unfold deleteTableAndWait
  cases hd : store.deleteResult with
  | error m =>
    refine ⟨[Action.deleteTable t], ?_, ?_, ?_⟩
    · simp [deleteTableOp, hd]
    · intro v h
      simp at h
    · intro v h
      simp at h
  | ok uu =>
    cases uu
    simp only [deleteTableOp, hd]
    rcases waitForTableDeletion_trace store t 30
      ⟨s.describeIdx, s.trace ++ [Action.deleteTable t]⟩ with ⟨k, hk⟩
    refine ⟨[Action.deleteTable t] ++ List.replicate k (Action.describeTable t), ?_, ?_, ?_⟩
    · dsimp only at hk
      rw [hk, List.append_assoc]
    · intro v h
      simp [List.mem_replicate] at h
    · intro v h
      simp [List.mem_replicate] at h

theorem lifecyclePhase_policy_failures {α : Type} (store : Store α) (input : HandlerInput)
    (t : String) (schema : TableSchema) (s : RunState) (u : String) :
    ((lifecyclePhase store input t schema s).1 =
        Except.error (ImportError.tableExistsNoOverwrite u) →
      (lifecyclePhase store input t schema s).2.trace = s.trace ++ [Action.describeTable t]) ∧
    ((lifecyclePhase store input t schema s).1 =
        Except.error (ImportError.tableMissingNoCreate u) →
      ∃ ext, (lifecyclePhase store input t schema s).2.trace = s.trace ++ ext ∧
        (∀ v, Action.createTable v ∉ ext) ∧
        (∀ v, Action.putItem v ∉ ext) ∧
        (store.describeResponses s.describeIdx = DescribeResult.notFound →
          ∀ v, Action.deleteTable v ∉ ext)) := by
  simp only [lifecyclePhase, checkTableExists, describeTableOp]
  cases h0 : store.describeResponses s.describeIdx with
  | otherError m => simp
  | found st =>
    cases hov : input.overwriteExisting with
    | false => simp
    | true =>
      simp only [show ((true && !true) = true) = False from by simp,
        show ((true && true) = true) = True from by simp,
        show ((!true || true) = true) = True from by simp, if_true, if_false]
      split
      · rename_i e ws heq
        have h1 := deleteTableAndWait_policy_free store t
          ⟨s.describeIdx + 1, s.trace ++ [Action.describeTable t]⟩ u
        rw [heq] at h1
        exact ⟨fun hcon => absurd hcon h1.1, fun hcon => absurd hcon h1.2⟩
      · rename_i uu2 ws heq
        cases hc : input.createTable with
        | true =>
          rw [if_pos (rfl : true = true)]
          have h1 := createTableAndWait_policy_free store t schema ws u
          exact ⟨fun hcon => absurd hcon h1.1, fun hcon => absurd hcon h1.2⟩
        | false =>
          rw [if_neg (show ¬(false = true) by decide)]
          refine ⟨?_, ?_⟩
          · intro hcon
            simp at hcon
          · intro _
            rcases deleteTableAndWait_trace store t
              ⟨s.describeIdx + 1, s.trace ++ [Action.describeTable t]⟩ with ⟨ext0, hext, hnc, hnp⟩
            rw [heq] at hext
            dsimp only at hext
            refine ⟨[Action.describeTable t] ++ ext0, ?_, ?_, ?_, ?_⟩
            · dsimp only
              rw [hext, List.append_assoc]
            · intro v
              simp only [List.mem_append, List.mem_singleton]
              rintro (h | h)
              · exact Action.noConfusion h
              · exact hnc v h
            · intro v
              simp only [List.mem_append, List.mem_singleton]
              rintro (h | h)
              · exact Action.noConfusion h
              · exact hnp v h
            · intro hnf
              exact absurd hnf (by simp)
  | notFound =>
    simp only [show ((false && !input.overwriteExisting) = true) = False from by simp,
      show ((false && input.overwriteExisting) = true) = False from by simp,
      show ((!false || input.overwriteExisting) = true) = True from by simp,
      if_true, if_false]
    cases hc : input.createTable with
    | true =>
      rw [if_pos (rfl : true = true)]
      have h1 := createTableAndWait_policy_free store t schema
        ⟨s.describeIdx + 1, s.trace ++ [Action.describeTable t]⟩ u
      exact ⟨fun hcon => absurd hcon h1.1, fun hcon => absurd hcon h1.2⟩
    | false =>
      rw [if_neg (show ¬(false = true) by decide)]
      refine ⟨?_, ?_⟩
      · intro hcon
        simp at hcon
      · intro _
        refine ⟨[Action.describeTable t], rfl, ?_, ?_, ?_⟩
        · intro v h
          simp at h
        · intro v h
          simp at h
        · intro _ v h
          simp at h

/-! ## C1: policy failures and mutations -/

/-- C1 (amended): a run failing with `TableExistsNoOverwrite` has issued no
delete, create or record write; a run failing with `TableMissingNoCreate`
has issued no create and no record write, and — when the table did not
exist — no delete either.  (When the table existed with
`overwriteExisting = true` and `createTable = false`, the delete is issued
before the `TableMissingNoCreate` failure; see `c1_counterexample`.) -/
theorem c1_policy_failures_abort (store : Store Nat)
    (download : Except String (ExportData Nat)) (input : HandlerInput) (b : Nat)
    (u : String) (resp : HandlerResponse) (s : RunState)
    (h : handler store download input b = (resp, s)) :
    (resp = HandlerResponse.failure (ImportError.tableExistsNoOverwrite u) →
      ∀ v, Action.deleteTable v ∉ s.trace ∧ Action.createTable v ∉ s.trace ∧
        Action.putItem v ∉ s.trace) ∧
    (resp = HandlerResponse.failure (ImportError.tableMissingNoCreate u) →
      (∀ v, Action.createTable v ∉ s.trace ∧ Action.putItem v ∉ s.trace) ∧
      (store.describeResponses 0 = DescribeResult.notFound →
        ∀ v, Action.deleteTable v ∉ s.trace)) := by
  unfold handler at h
  by_cases hkey : input.sourceKey = ""
  · rw [if_pos hkey] at h
    have h2 := congrArg Prod.snd h
    dsimp only at h2
    subst h2
    exact ⟨fun _ v => ⟨by simp, by simp, by simp⟩,
      fun _ => ⟨fun v => ⟨by simp, by simp⟩, fun _ v => by simp⟩⟩
  · rw [if_neg hkey] at h
    cases download with
    | error m =>
      dsimp only at h
      have h2 := congrArg Prod.snd h
      dsimp only at h2
      subst h2
      exact ⟨fun _ v => ⟨by simp, by simp, by simp⟩,
        fun _ => ⟨fun v => ⟨by simp, by simp⟩, fun _ v => by simp⟩⟩
    | ok d =>
      rcases d with ⟨em, ts, its⟩
      cases em with
      | none =>
        dsimp only at h
        have h2 := congrArg Prod.snd h
        dsimp only at h2
        subst h2
        exact ⟨fun _ v => ⟨by simp, by simp, by simp⟩,
          fun _ => ⟨fun v => ⟨by simp, by simp⟩, fun _ v => by simp⟩⟩
      | some uu =>
        cases uu
        cases ts with
        | none =>
          dsimp only at h
          have h2 := congrArg Prod.snd h
          dsimp only at h2
          subst h2
          exact ⟨fun _ v => ⟨by simp, by simp, by simp⟩,
            fun _ => ⟨fun v => ⟨by simp, by simp⟩, fun _ v => by simp⟩⟩
        | some schema =>
          cases its with
          | none =>
            dsimp only at h
            have h2 := congrArg Prod.snd h
            dsimp only at h2
            subst h2
            exact ⟨fun _ v => ⟨by simp, by simp, by simp⟩,
              fun _ => ⟨fun v => ⟨by simp, by simp⟩, fun _ v => by simp⟩⟩
          | some items =>
            dsimp only at h
            set T := if input.targetTableName = "" then schema.tableName
              else input.targetTableName with hT
            rcases hl : lifecyclePhase store input T schema ⟨0, []⟩ with ⟨lres, ls⟩
            rw [hl] at h
            cases lres with
            | error e =>
              dsimp only at h
              have hr1 := congrArg Prod.fst h
              have hr2 := congrArg Prod.snd h
              dsimp only at hr1 hr2
              subst hr2
              constructor
              · intro hcon
                rw [← hr1] at hcon
                injection hcon with he
                subst he
                have htr := (lifecyclePhase_policy_failures store input T schema
                  ⟨0, []⟩ u).1 (by rw [hl])
                rw [hl] at htr
                dsimp only at htr
                intro v
                refine ⟨?_, ?_, ?_⟩ <;> simp [htr]
              · intro hcon
                rw [← hr1] at hcon
                injection hcon with he
                subst he
                rcases (lifecyclePhase_policy_failures store input T schema
                  ⟨0, []⟩ u).2 (by rw [hl]) with ⟨ext, hext, hnc, hnp, hnd⟩
                rw [hl] at hext
                dsimp only at hext
                constructor
                · intro v
                  constructor
                  · rw [hext]
                    exact hnc v
                  · rw [hext]
                    exact hnp v
                · intro hnf v
                  rw [hext]
                  exact hnd hnf v
            | ok uu2 =>
              cases uu2
              dsimp only at h
              rcases hi : importItems store b T items ls with ⟨res, s2⟩
              rw [hi] at h
              dsimp only at h
              have hr1 := congrArg Prod.fst h
              dsimp only at hr1
              constructor <;> intro hcon <;> rw [← hr1] at hcon <;>
                exact HandlerResponse.noConfusion hcon

/-- A minimal valid schema used by the concrete runs. -/
def schemaTrivial : TableSchema :=
  ⟨"Users", [⟨"id", "HASH"⟩], [⟨"id", "S"⟩], some "PAY_PER_REQUEST", none, none, none, none⟩

/-- Flags for the C1 counterexample: overwrite an existing table but do not
allow creation. -/
def inputC1 : HandlerInput := ⟨"backup.json", "T", false, true⟩

/-- Store for the C1 counterexample: the table exists at the first
describe, is gone at the second. -/
def storeC1 : Store Nat :=
  ⟨fun i => if i = 0 then DescribeResult.found "ACTIVE" else DescribeResult.notFound,
    Except.ok (), Except.ok (), fun _ => Except.ok ()⟩

/-- The parsed artifact for the C1 counterexample. -/
def downloadC1 : Except String (ExportData Nat) :=
  Except.ok ⟨some (), some schemaTrivial, some [0]⟩

/-- C1 counterexample: with the table existing, `overwriteExisting = true`
and `createTable = false`, the run fails with `TableMissingNoCreate` but a
delete has been issued before the failure — refuting "no delete ... has
been issued at the moment of failure". -/
theorem c1_counterexample :
    (handler storeC1 downloadC1 inputC1 25).1 =
      HandlerResponse.failure (ImportError.tableMissingNoCreate "T") ∧
    Action.deleteTable "T" ∈ (handler storeC1 downloadC1 inputC1 25).2.trace := by
  constructor
  · rfl
  · decide

/-- Witness for `c1_policy_failures_abort`: a run that fails with
`TableExistsNoOverwrite` has issued no delete, create or write. -/
theorem c1_policy_failures_abort_witness :
    Action.deleteTable "T" ∉
        (handler storeC1 downloadC1 ⟨"backup.json", "T", false, false⟩ 25).2.trace ∧
    Action.createTable "T" ∉
        (handler storeC1 downloadC1 ⟨"backup.json", "T", false, false⟩ 25).2.trace ∧
    Action.putItem "T" ∉
        (handler storeC1 downloadC1 ⟨"backup.json", "T", false, false⟩ 25).2.trace :=
  (c1_policy_failures_abort storeC1 downloadC1 ⟨"backup.json", "T", false, false⟩ 25 "T"
    (handler storeC1 downloadC1 ⟨"backup.json", "T", false, false⟩ 25).1
    (handler storeC1 downloadC1 ⟨"backup.json", "T", false, false⟩ 25).2 rfl).1 rfl "T"

/-! ## C2: rejection of malformed artifacts -/

/-- C2 (amended): when a required section is missing the run fails with the
single, generic `MalformedExport` error — whose message does not name the
missing section — and the rejection happens before any destination-table
call (the trace is empty and no describe response has been consumed). -/
theorem c2_malformed_rejection (store : Store Nat)
    (download : Except String (ExportData Nat)) (input : HandlerInput) (b : Nat)
    (d : ExportData Nat) (hkey : input.sourceKey ≠ "") (hdl : download = Except.ok d)
    (hmiss : d.exportMetadata = none ∨ d.tableSchema = none ∨ d.items = none) :
    handler store download input b =
      (HandlerResponse.failure ImportError.malformedExport, ⟨0, []⟩) := by
  subst hdl
  rcases d with ⟨em, ts, its⟩
  cases em <;> cases ts <;> cases its <;> simp_all [handler, if_neg hkey]

/-- An idle store (every describe answers not-found; all commands
succeed). -/
def storeIdle : Store Nat :=
  ⟨fun _ => DescribeResult.notFound, Except.ok (), Except.ok (), fun _ => Except.ok ()⟩

/-- Flags used by the C2 runs. -/
def inputC2 : HandlerInput := ⟨"backup.json", "", false, false⟩

/-- C2 counterexample: an artifact whose first missing section is the
metadata and one whose first missing section is the records produce the
very same `MalformedExport` error, whose message is the fixed generic
string — so the error does not name the first missing section. -/
theorem c2_counterexample :
    (handler storeIdle (Except.ok ⟨none, some schemaTrivial, some [0]⟩) inputC2 25).1 =
      HandlerResponse.failure ImportError.malformedExport ∧
    (handler storeIdle (Except.ok ⟨some (), some schemaTrivial, none⟩) inputC2 25).1 =
      HandlerResponse.failure ImportError.malformedExport ∧
    ImportError.malformedExport.message =
      "Invalid export file format. Missing required fields." :=
  ⟨rfl, rfl, rfl⟩

/-- Witness for `c2_malformed_rejection` at an artifact missing its
metadata section. -/
theorem c2_malformed_rejection_witness :
    handler storeIdle (Except.ok ⟨none, some schemaTrivial, some [0]⟩) inputC2 25 =
      (HandlerResponse.failure ImportError.malformedExport, ⟨0, []⟩) :=
  c2_malformed_rejection storeIdle _ inputC2 25 _ (by decide) rfl (Or.inl rfl)

/-! ## C6: per-record failures never escalate -/

/-- C6: whenever the pipeline reaches the import phase, per-record write
failures never escalate to a fatal error: even when every record's write
fails, the handler returns statusCode 200 with `successCount = 0` and
`failedCount` equal to the number of records. -/
theorem c6_per_record_failures_not_fatal (store : Store Nat)
    (download : Except String (ExportData Nat)) (input : HandlerInput) (b : Nat)
    (d : ExportData Nat) (schema : TableSchema) (items : List Nat)
    (hkey : input.sourceKey ≠ "") (hdl : download = Except.ok d)
    (hm : d.exportMetadata = some ()) (hs : d.tableSchema = some schema)
    (hi : d.items = some items) (hb : 0 < b)
    (hlc : (lifecyclePhase store input
      (if input.targetTableName = "" then schema.tableName else input.targetTableName)
      schema ⟨0, []⟩).1 = Except.ok ())
    (hput : ∀ x ∈ items, putOk store.putResult x = false) :
    (handler store download input b).1 =
      HandlerResponse.success
        (if input.targetTableName = "" then schema.tableName else input.targetTableName)
        0 items.length ∧
    statusCode (handler store download input b).1 = 200 := by
  subst hdl
  have hd : d = ⟨some (), some schema, some items⟩ := by
    rcases d with ⟨em, ts, its⟩
    dsimp only at hm hs hi
    rw [hm, hs, hi]
  subst hd
  have key : (handler store (Except.ok ⟨some (), some schema, some items⟩) input b).1 =
      HandlerResponse.success
        (if input.targetTableName = "" then schema.tableName
          else input.targetTableName) 0 items.length := by
    unfold handler
    rw [if_neg hkey]
    dsimp only
    rcases hl : lifecyclePhase store input
      (if input.targetTableName = "" then schema.tableName
        else input.targetTableName) schema ⟨0, []⟩ with ⟨lres, ls⟩
    rw [hl] at hlc
    dsimp only at hlc
    subst hlc
    dsimp only
    rw [importItems_eq store _ b items ls hb]
    dsimp only
    have hzero : items.countP (putOk store.putResult) = 0 :=
      List.countP_eq_zero.mpr (by intro x hx; simp [hput x hx])
    have hall : items.countP (fun x => !putOk store.putResult x) = items.length :=
      List.countP_eq_length.mpr (by intro x hx; simp [hput x hx])
    rw [hzero, hall]
  exact ⟨key, by rw [key]; rfl⟩

/-- A store for the C6 witness: the table is missing, creation succeeds and
becomes active, and every record write fails. -/
def storeC6 : Store Nat :=
  ⟨fun i => if i = 0 then DescribeResult.notFound else DescribeResult.found "ACTIVE",
    Except.ok (), Except.ok (), fun _ => Except.error "ValidationException"⟩

/-- Flags for the C6 witness: create the missing table. -/
def inputC6 : HandlerInput := ⟨"backup.json", "", true, false⟩

/-- Witness for `c6_per_record_failures_not_fatal`: two records, both
writes fail, the run still completes with statusCode 200. -/
theorem c6_per_record_failures_not_fatal_witness :
    (handler storeC6 (Except.ok ⟨some (), some schemaTrivial, some [0, 1]⟩)
        inputC6 25).1 = HandlerResponse.success "Users" 0 2 ∧
    statusCode (handler storeC6 (Except.ok ⟨some (), some schemaTrivial, some [0, 1]⟩)
        inputC6 25).1 = 200 :=
  c6_per_record_failures_not_fatal storeC6 _ inputC6 25 _ schemaTrivial [0, 1]
    (by decide) rfl rfl rfl rfl (by decide) rfl (fun x _ => rfl)

end DBImport
